import Mathlib

/-!
Verification of the AutoExport Electrum plugin (`src/auto_export/qt.py`).

The development shallowly embeds the plugin's pure data paths (the CSV
formatter `get_exported_data`, the CSV serialisation shared by the local and
FTP sinks), its effectful operations (`export_csv`, `export_csv_local`,
`export_csv_ftp`) as trace-producing functions over an explicit external
world, the repeating-timer loop of `call_repeatedly`, and the plugin's
timer/wallet/settings state machine (`load_wallet`, `close_wallet`,
`update_settings`).
-/

namespace AutoExport

/-- Model of the Python values that can appear as a CSV cell in this plugin:
strings, ints (the raw `confirmations` count), and `None`. -/
inductive PyVal where
  | pynone
  | str (s : String)
  | int (n : Int)
deriving DecidableEq, Repr

/-- How Python's `csv.writer` renders a cell before quoting: `str()` for
ints and strings, and the empty string for `None`. -/
def PyVal.render : PyVal → List Char
  | .pynone => []
  | .str s => s.data
  | .int n => (toString n).data

/-! ## CSV writer

Modelled from the Python standard library `csv.writer` with the dialect the
plugin uses at qt.py:117 and qt.py:158: delimiter `,`, quotechar a double
quote, doublequote escaping, QUOTE_MINIMAL, and `lineterminator " \x0a "`.
A field is quoted when it contains the delimiter, the quote character, or a
character of the line terminator (so a bare carriage return is NOT quoted);
a row consisting of a single empty field is written as a quoted empty
field. -/

/-- Does QUOTE_MINIMAL quote this rendered field?  True when the field
contains the delimiter, the quote character, or a character of the
line terminator (which is just the newline here). -/
def fieldNeedsQuote (f : List Char) : Bool :=
  f.any (fun c => c = ',' || c = '"' || c = '\n')

/-- Doublequote escaping of a field body: each quote character is doubled. -/
def escField : List Char → List Char
  | [] => []
  | c :: t => if c = '"' then '"' :: '"' :: escField t else c :: escField t

/-- Serialise one rendered field, quoting it when QUOTE_MINIMAL requires. -/
def writeField (f : List Char) : List Char :=
  if fieldNeedsQuote f then '"' :: (escField f ++ ['"']) else f

/-- Serialise the fields of a row, separated by the delimiter. -/
def sepFields : List (List Char) → List Char
  | [] => []
  | [f] => writeField f
  | f :: fs => writeField f ++ ',' :: sepFields fs

/-- Serialise one row followed by the line terminator.  A row made of a
single empty field is written as a quoted empty field, so that the line is
not confused with an empty row. -/
def writeRow (row : List (List Char)) : List Char :=
  if row = [] then ['\n']
  else if row = [[]] then ['"', '"', '\n']
  else sepFields row ++ ['\n']

/-- Serialisation of a whole table, one row per line, as performed by the
loop `for line in lines: transaction.writerow(line)` of the local sink
(qt.py:118-119). -/
def serializeTable (t : List (List PyVal)) : List Char :=
  (t.map (fun r => writeRow (r.map PyVal.render))).flatten

/-- The string the local sink writes to the opened file (qt.py:116-119). -/
def localCsvString (t : List (List PyVal)) : String :=
  String.mk (serializeTable t)

/-- Serialisation as performed by the FTP sink's own loop over the in-memory
text buffer (qt.py:157-160); the source repeats the `writerow` loop with a
fold over the growing buffer. -/
def ftpCsvString (t : List (List PyVal)) : String :=
  String.mk (t.foldl (fun acc r => acc ++ writeRow (r.map PyVal.render)) [])

/-- The byte buffer the FTP sink uploads: the UTF-8 encoding of its
serialised text buffer (qt.py:161). -/
def ftpUploadBytes (t : List (List PyVal)) : ByteArray :=
  (ftpCsvString t).toUTF8

/-- The bytes the local sink's file holds after a successful write: the
UTF-8 encoding of the serialised text (text-mode write of `localCsvString`,
UTF-8 locale, POSIX newline handling). -/
def localFileBytes (t : List (List PyVal)) : ByteArray :=
  (localCsvString t).toUTF8

/-! ## CSV reader

Modelled from the Python standard library `csv.reader` state machine
(default dialect, non-strict, doublequote): fields are separated by the
delimiter, a field starting with the quote character is read up to the
closing quote with doubled quotes collapsed, and both newline and carriage
return end a record (a carriage return optionally followed by a newline). -/

/-- States of the reader automaton, after Python's `_csv.c`. -/
inductive RMode where
  | startRecord
  | startField
  | inField
  | inQuoted
  | quoteInQuoted
  | eatCrnl
deriving DecidableEq, Repr

/-- One pass of the reader automaton.  `field` is the field read so far,
`row` the completed fields of the current record; rows are emitted at each
record end. -/
def parseAux (st : RMode) (cs : List Char) (field : List Char)
    (row : List (List Char)) : List (List (List Char)) :=
  match cs with
  | [] =>
    match st with
    | .startRecord => []
    | .eatCrnl => []
    | _ => [row ++ [field]]
  | c :: r =>
    match st with
    | .startRecord =>
      if c = '\n' then [] :: parseAux .startRecord r [] []
      else if c = '\r' then [] :: parseAux .eatCrnl r [] []
      else if c = '"' then parseAux .inQuoted r [] []
      else if c = ',' then parseAux .startField r [] [[]]
      else parseAux .inField r [c] []
    | .startField =>
      if c = '\n' then (row ++ [field]) :: parseAux .startRecord r [] []
      else if c = '\r' then (row ++ [field]) :: parseAux .eatCrnl r [] []
      else if c = '"' then parseAux .inQuoted r field row
      else if c = ',' then parseAux .startField r [] (row ++ [field])
      else parseAux .inField r (field ++ [c]) row
    | .inField =>
      if c = '\n' then (row ++ [field]) :: parseAux .startRecord r [] []
      else if c = '\r' then (row ++ [field]) :: parseAux .eatCrnl r [] []
      else if c = ',' then parseAux .startField r [] (row ++ [field])
      else parseAux .inField r (field ++ [c]) row
    | .inQuoted =>
      if c = '"' then parseAux .quoteInQuoted r field row
      else parseAux .inQuoted r (field ++ [c]) row
    | .quoteInQuoted =>
      if c = '"' then parseAux .inQuoted r (field ++ ['"']) row
      else if c = ',' then parseAux .startField r [] (row ++ [field])
      else if c = '\n' then (row ++ [field]) :: parseAux .startRecord r [] []
      else if c = '\r' then (row ++ [field]) :: parseAux .eatCrnl r [] []
      else parseAux .inField r (field ++ [c]) row
    | .eatCrnl =>
      if c = '\n' then parseAux .startRecord r [] []
      else if c = '\r' then parseAux .eatCrnl r [] []
      else if c = '"' then parseAux .inQuoted r [] []
      else if c = ',' then parseAux .startField r [] [[]]
      else parseAux .inField r [c] []

/-- Read a whole character stream into records of fields. -/
def parseCsv (cs : List Char) : List (List (List Char)) :=
  parseAux .startRecord cs [] []

/-! ## Formatter (`Plugin.get_exported_data`, qt.py:81-105) -/

/-- One item of `wallet.get_history()`: the tuple
`(tx_hash, height, confirmations, timestamp, value, balance)`.  The hash may
be empty, and timestamp and value may be `None`. -/
structure HistItem where
  tx_hash : String
  height : Int
  confirmations : Int
  timestamp : Option Int
  value : Option Int
  balance : Int
deriving DecidableEq, Repr

/-- The external collaborators the plugin calls: the wallet history
provider and label store, the `electrum.util` formatting helpers, the
current `time.strftime` stamp, and the outcomes of the I/O operations the
sinks attempt. -/
structure World where
  history : List HistItem
  getLabel : String → String
  fmtTime : Int → String
  fmtSatoshis : Int → String
  now : String
  localWriteResult : Except String Unit
  ftpConnectResult : Except String Unit
  ftpLoginResult : Except String Unit
  ftpCwdResult : Except String Unit
  ftpStorResult : Except String Unit

/-- Formatting of one history item into a CSV row (qt.py:85-104): the
timestamp cell depends on height and on the presence of a timestamp, the
value cell falls back to a placeholder, the label is looked up only for a
non-empty hash, and confirmations pass through as a raw integer. -/
def formatRow (w : World) (it : HistItem) : List PyVal :=
  let time_string : String :=
    if it.height > 0 then
      match it.timestamp with
      | some ts => w.fmtTime ts
      | none => "unverified"
    else "unconfirmed"
  let value_string : String :=
    match it.value with
    | some v => w.fmtSatoshis v
    | none => "--"
  let label : String := if it.tx_hash ≠ "" then w.getLabel it.tx_hash else ""
  [.str it.tx_hash, .str label, .int it.confirmations, .str value_string,
    .str time_string]

/-- The header row of qt.py:83. -/
def headerRow : List PyVal :=
  [.str "transaction_hash", .str "label", .str "confirmations", .str "value",
    .str "timestamp"]

/-- `Plugin.get_exported_data`: header plus one formatted row per history
item. -/
def get_exported_data (w : World) : List (List PyVal) :=
  headerRow :: w.history.map (formatRow w)

/-! ## Sinks and coordinator (`export_csv_local`, `export_csv_ftp`,
`export_csv`) -/

/-- The value of the `autoexport_ftp_port` attribute: an int when it comes
from the default (21), a string once the settings dialog has stored the
line-edit text. -/
inductive PortVal where
  | int (n : Int)
  | str (s : String)
deriving DecidableEq, Repr

/-- Python truthiness of the port attribute: a non-zero int or a non-empty
string. -/
def PortVal.truthy : PortVal → Bool
  | .int n => n ≠ 0
  | .str s => s ≠ ""

/-- Python `int()` applied to the port attribute, as in
`ftp.connect(host, int(port))`; `none` models a `ValueError`. -/
def PortVal.toPyInt : PortVal → Option Int
  | .int n => some n
  | .str s => s.toInt?

/-- The configuration attributes `update_settings` captures onto the plugin
instance (qt.py:191-199). -/
structure Config where
  interval : Nat
  needLocal : Bool
  needFtp : Bool
  localPath : String
  ftpHost : String
  ftpPort : PortVal
  ftpUser : String
  ftpPassword : String
  ftpDir : String
deriving DecidableEq, Repr

/-- Observable effects of one export cycle. -/
inductive Eff where
  | readHistory
  | writeLocal (path : String) (content : String)
  | ftpConnect (host : String) (port : Int)
  | ftpLogin (user password : String)
  | ftpCwd (dir : String)
  | ftpStor (filename : String) (content : String)
  | logError (msg : String)
deriving DecidableEq, Repr

/-- `Plugin.export_csv_local` (qt.py:107-121): inside a try/except, return
early on an empty path, build the timestamped file path, read and format
the history, and write the CSV; any exception is caught and logged.  The
result is the effect trace paired with the exception escaping the call
(always `none`: the except clause swallows everything). -/
def export_csv_local (cfg : Config) (w : World) : List Eff × Option String :=
  if cfg.localPath = "" then ([], none)
  else
    let filename := w.now ++ ".csv"
    let filepath := cfg.localPath ++ "/" ++ filename
    let lines := get_exported_data w
    match w.localWriteResult with
    | .ok _ => ([.readHistory, .writeLocal filepath (localCsvString lines)], none)
    | .error e => ([.readHistory, .logError e], none)

/-- `Plugin.export_csv_ftp` (qt.py:141-168): inside a try/except, return
early unless host, port, user and password are all truthy; then read and
format the history, connect, log in, optionally change directory, and
upload the serialised buffer; any exception at any step is caught and
logged. -/
def export_csv_ftp (cfg : Config) (w : World) : List Eff × Option String :=
  if cfg.ftpHost = "" || !cfg.ftpPort.truthy then ([], none)
  else if cfg.ftpUser = "" || cfg.ftpPassword = "" then ([], none)
  else
    let filename := w.now ++ ".csv"
    let lines := get_exported_data w
    match cfg.ftpPort.toPyInt with
    | none => ([.readHistory, .logError "invalid int literal"], none)
    | some p =>
      match w.ftpConnectResult with
      | .error e => ([.readHistory, .ftpConnect cfg.ftpHost p, .logError e], none)
      | .ok _ =>
        match w.ftpLoginResult with
        | .error e =>
          ([.readHistory, .ftpConnect cfg.ftpHost p,
            .ftpLogin cfg.ftpUser cfg.ftpPassword, .logError e], none)
        | .ok _ =>
          let pre : List Eff :=
            [.readHistory, .ftpConnect cfg.ftpHost p,
             .ftpLogin cfg.ftpUser cfg.ftpPassword]
          if cfg.ftpDir ≠ "" then
            match w.ftpCwdResult with
            | .error e => (pre ++ [.ftpCwd cfg.ftpDir, .logError e], none)
            | .ok _ =>
              match w.ftpStorResult with
              | .error e =>
                (pre ++ [.ftpCwd cfg.ftpDir,
                  .ftpStor filename (ftpCsvString lines), .logError e], none)
              | .ok _ =>
                (pre ++ [.ftpCwd cfg.ftpDir,
                  .ftpStor filename (ftpCsvString lines)], none)
          else
            match w.ftpStorResult with
            | .error e =>
              (pre ++ [.ftpStor filename (ftpCsvString lines), .logError e],
                none)
            | .ok _ => (pre ++ [.ftpStor filename (ftpCsvString lines)], none)

/-- `Plugin.export_csv` (qt.py:75-79): run the local sink when enabled,
then the FTP sink when enabled.  An exception escaping a sink would skip
the rest; the traces are concatenated. -/
def export_csv (cfg : Config) (w : World) : List Eff × Option String :=
  let step1 : List Eff × Option String :=
    if cfg.needLocal then export_csv_local cfg w else ([], none)
  match step1 with
  | (t1, some e) => (t1, some e)
  | (t1, none) =>
    let step2 : List Eff × Option String :=
      if cfg.needFtp then export_csv_ftp cfg w else ([], none)
    (t1 ++ step2.1, step2.2)

/-- Interpretation of an effect trace on a filesystem (path to file
content).  A `writeLocal` effect is Python's `open(filepath, "w+")`
followed by the writes: the mode truncates an existing file, so the path
ends up holding exactly the new content. -/
def applyEffs (effs : List Eff) (fs : String → Option String) :
    String → Option String :=
  match effs with
  | [] => fs
  | .writeLocal p c :: rest =>
    applyEffs rest (fun q => if q = p then some c else fs q)
  | _ :: rest => applyEffs rest fs

/-! ## Repeating timer (`Plugin.call_repeatedly`, qt.py:63-70)

The loop body is `while not stopped.wait(interval): func(*args)`.  There is
no try/except around `func`: an exception raised by an invocation
propagates and terminates the background thread.  We model a run by the
list of outcomes the successive invocations would have, ended by
cancellation, and count how many invocations actually happen. -/

/-- Number of callback invocations the loop performs, given the outcome
each successive invocation would have (`.error` models a raised
exception).  The loop body has no exception handler, so the invocation
after a raising one never happens. -/
def callsBeforeExit : List (Except String Unit) → Nat
  | [] => 0
  | .ok _ :: rest => 1 + callsBeforeExit rest
  | .error _ :: _ => 1

/-! ## Plugin state machine (`load_wallet`, `close_wallet`,
`update_settings`) -/

/-- The plugin's mutable instance state: whether a wallet is loaded, the
`self.timer` cancellation handle (as an index into the ledger of spawned
timers), the liveness ledger of every timer ever spawned by
`call_repeatedly`, the captured configuration attributes, and the status
indicator's connected flag. -/
structure PState where
  wallet : Bool
  timerRef : Option Nat
  timers : List Bool
  cfg : Config
  status : Bool
deriving DecidableEq, Repr

/-- `call_repeatedly` starts a new background timer and hands back its
cancellation capability, which the caller stores in `self.timer`. -/
def spawnTimer (s : PState) : PState :=
  { s with timers := s.timers ++ [true], timerRef := some s.timers.length }

/-- Invoking `self.timer()` sets the stop event of the timer the handle
refers to; the handle itself is left in place. -/
def cancelRef (s : PState) : PState :=
  match s.timerRef with
  | some i => { s with timers := s.timers.set i false }
  | none => s

/-- `Plugin.load_wallet` (qt.py:170-176): record the wallet, and unless the
interval is unset start a repeating timer.  An already-running timer is
neither cancelled nor cleared. -/
def load_wallet (s : PState) : PState :=
  let s := { s with wallet := true }
  if s.cfg.interval = 0 then s else spawnTimer s

/-- `Plugin.close_wallet` (qt.py:178-182): clear the wallet and cancel the
timer the handle refers to, if any. -/
def close_wallet (s : PState) : PState :=
  let s := { s with wallet := false }
  cancelRef s

/-- `Plugin.update_settings` (qt.py:190-212): capture the configuration
onto the instance, cancel the referenced timer and clear the handle; then
return early when this is the initial call, no wallet is loaded, or the
interval is unset — otherwise start a new timer and set the status
indicator to connected exactly when the interval is set and a sink is
enabled. -/
def update_settings (cfg : Config) (initial : Bool) (s : PState) : PState :=
  let s := { s with cfg := cfg }
  let s := cancelRef s
  let s := { s with timerRef := none }
  if initial || !s.wallet || s.cfg.interval = 0 then s
  else
    let s := spawnTimer s
    { s with
      status := decide (s.cfg.interval ≠ 0) && (s.cfg.needLocal || s.cfg.needFtp) }

/-- `Plugin.auto_export_enabled` (qt.py:72-73). -/
def auto_export_enabled (cfg : Config) : Bool :=
  cfg.needLocal || cfg.needFtp

/-- A timer is live when it has been spawned and not cancelled. -/
def liveAt (s : PState) (i : Nat) : Prop :=
  i < s.timers.length ∧ s.timers.getD i false = true

/-- At most one live, uncancelled timer. -/
def atMostOneLive (s : PState) : Prop :=
  ∀ i j, liveAt s i → liveAt s j → i = j

/-- The strengthened timer invariant: every live timer is the one the
`self.timer` handle refers to. -/
def TimerInv (s : PState) : Prop :=
  ∀ i, i < s.timers.length → s.timers.getD i false = true →
    s.timerRef = some i

/-- The outcome of one timer-driven invocation of `export_csv`: an
exception when one escapes, success otherwise. -/
def exportOutcome (cfg : Config) (w : World) : Except String Unit :=
  match (export_csv cfg w).2 with
  | none => .ok ()
  | some e => .error e

/-! ## Sample data for witnesses -/

/-- A concrete external world with one confirmed history item. -/
def sampleWorld : World where
  history := [⟨"abc123", 100, 3, some 1690000000, some 5000, 5000⟩]
  getLabel := fun _ => "my label"
  fmtTime := fun _ => "2023-07-22 02:13"
  fmtSatoshis := fun _ => "0.00005000"
  now := "2023_07_22__02_13_20"
  localWriteResult := .ok ()
  ftpConnectResult := .ok ()
  ftpLoginResult := .ok ()
  ftpCwdResult := .ok ()
  ftpStorResult := .ok ()

/-- The same world with a failing local write. -/
def sampleWorldBadDisk : World :=
  { sampleWorld with localWriteResult := .error "Permission denied" }

/-- A configuration with both sinks enabled and a 5 second interval. -/
def sampleCfg : Config where
  interval := 5
  needLocal := true
  needFtp := true
  localPath := "/tmp/out"
  ftpHost := "ftp.example.org"
  ftpPort := .int 21
  ftpUser := "u"
  ftpPassword := "p"
  ftpDir := "exports"

/-- The sample configuration with the interval unset. -/
def sampleCfgZero : Config := { sampleCfg with interval := 0 }

/-- The sample configuration with empty FTP credentials. -/
def sampleCfgNoFtpCreds : Config := { sampleCfg with ftpUser := "" }

/-- A plugin state with a loaded wallet, a connected status indicator and
no timer ever spawned. -/
def sampleStateConnected : PState where
  wallet := true
  timerRef := none
  timers := []
  cfg := sampleCfg
  status := true

/-- A fresh plugin state: no wallet, no timer. -/
def sampleStateFresh : PState where
  wallet := false
  timerRef := none
  timers := []
  cfg := sampleCfg
  status := false

/-! # Theorems -/

/-- Helper: the local sink never lets an exception escape (its whole body
is inside try/except, qt.py:108-121). -/
theorem export_csv_local_no_raise (cfg : Config) (w : World) :
    (export_csv_local cfg w).2 = none := by
  unfold export_csv_local
  split
  · rfl
  · split <;> rfl

/-- Helper: the FTP sink never lets an exception escape (its whole body is
inside try/except, qt.py:142-168). -/
theorem export_csv_ftp_no_raise (cfg : Config) (w : World) :
    (export_csv_ftp cfg w).2 = none := by
  unfold export_csv_ftp
  split
  · rfl
  · split
    · rfl
    · split
      · rfl
      · split
        · rfl
        · split
          · rfl
          · split
            · split
              · rfl
              · split <;> rfl
            · split <;> rfl

/-- Helper: the coordinator `export_csv` never lets an exception escape. -/
theorem export_csv_no_raise (cfg : Config) (w : World) :
    (export_csv cfg w).2 = none := by
  have h1 : (if cfg.needLocal then export_csv_local cfg w else ([], none)).2
      = none := by
    split
    · exact export_csv_local_no_raise cfg w
    · rfl
  have h2 : (if cfg.needFtp then export_csv_ftp cfg w else ([], none)).2
      = none := by
    split
    · exact export_csv_ftp_no_raise cfg w
    · rfl
  unfold export_csv
  rcases hloc : (if cfg.needLocal = true then export_csv_local cfg w
    else ([], none)) with ⟨t1, r1⟩
  rw [hloc] at h1
  simp only [hloc]
  cases r1
  · simpa using h2
  · simp at h1

/-- C2: for every history of valid records (hash possibly empty, value and
timestamp possibly absent), `get_exported_data` is total, produces one row
per item plus the header, and no cell of any produced row is a raw
Python `None`. -/
theorem c2_formatter_total (w : World) :
    (get_exported_data w).length = w.history.length + 1 ∧
    ∀ row ∈ get_exported_data w, ∀ cell ∈ row, cell ≠ PyVal.pynone := by
  refine ⟨by simp [get_exported_data], ?_⟩
  intro row hrow cell hcell
  rcases List.mem_cons.mp hrow with rfl | hrow
  · simp only [headerRow, List.mem_cons, List.not_mem_nil, or_false] at hcell
    rcases hcell with rfl | rfl | rfl | rfl | rfl <;> simp
  · rcases List.mem_map.mp hrow with ⟨it, _, rfl⟩
    simp only [formatRow, List.mem_cons, List.not_mem_nil, or_false] at hcell
    rcases hcell with rfl | rfl | rfl | rfl | rfl <;> simp

/-- C2 witness: the totality statement applied to the sample world. -/
theorem c2_formatter_total_witness :
    (get_exported_data sampleWorld).length
        = sampleWorld.history.length + 1 ∧
    ∀ row ∈ get_exported_data sampleWorld, ∀ cell ∈ row,
      cell ≠ PyVal.pynone :=
  c2_formatter_total sampleWorld

/-- C5: with the interval unset, neither `load_wallet` nor
`update_settings` creates a timer: loading a wallet leaves the timer
ledger and the handle untouched, and a settings update spawns nothing and
clears the handle. -/
theorem c5_interval_zero_idle (s : PState) (cfg : Config) (ini : Bool)
    (h : s.cfg.interval = 0) (hc : cfg.interval = 0) :
    (load_wallet s).timers = s.timers ∧
    (load_wallet s).timerRef = s.timerRef ∧
    (update_settings cfg ini s).timers.length = s.timers.length ∧
    (update_settings cfg ini s).timerRef = none := by
  refine ⟨by simp [load_wallet, h], by simp [load_wallet, h], ?_, ?_⟩
  · unfold update_settings cancelRef
    rcases h' : s.timerRef with _ | i <;> simp [h', hc]
  · unfold update_settings cancelRef
    rcases h' : s.timerRef with _ | i <;> simp [h', hc]

/-- C5 witness: the idle statement at the connected sample state and the
zero-interval configuration. -/
theorem c5_interval_zero_idle_witness :
    (load_wallet { sampleStateConnected with cfg := sampleCfgZero }).timers
        = ({ sampleStateConnected with cfg := sampleCfgZero } : PState).timers ∧
    (load_wallet { sampleStateConnected with cfg := sampleCfgZero }).timerRef
        = ({ sampleStateConnected with cfg := sampleCfgZero } : PState).timerRef ∧
    (update_settings sampleCfgZero false
        { sampleStateConnected with cfg := sampleCfgZero }).timers.length
      = ({ sampleStateConnected with cfg := sampleCfgZero } : PState).timers.length ∧
    (update_settings sampleCfgZero false
        { sampleStateConnected with cfg := sampleCfgZero }).timerRef = none :=
  c5_interval_zero_idle _ sampleCfgZero false rfl rfl

/-- C6: when any of host, port, user, password is empty (falsy), the FTP
sink performs no effect at all — no wallet read, no connection attempt —
and raises nothing. -/
theorem c6_ftp_noop (cfg : Config) (w : World)
    (h : cfg.ftpHost = "" ∨ cfg.ftpPort.truthy = false ∨
      cfg.ftpUser = "" ∨ cfg.ftpPassword = "") :
    export_csv_ftp cfg w = ([], none) := by
  unfold export_csv_ftp
  rcases h with h | h | h | h
  · simp [h]
  · simp [h]
  · by_cases h1 : (cfg.ftpHost = "" || !cfg.ftpPort.truthy) = true <;>
      simp [h1, h]
  · by_cases h1 : (cfg.ftpHost = "" || !cfg.ftpPort.truthy) = true <;>
      simp [h1, h]

/-- C6 witness: the FTP no-op at the sample configuration with an empty
user. -/
theorem c6_ftp_noop_witness :
    export_csv_ftp sampleCfgNoFtpCreds sampleWorld = ([], none) :=
  c6_ftp_noop sampleCfgNoFtpCreds sampleWorld (Or.inr (Or.inr (Or.inl rfl)))

/-- C7: with both sinks enabled, one export cycle is the local sink's
trace followed by the FTP sink's trace with nothing escaping — a local
failure does not block the FTP sink — and a failing local write is caught
and logged inside the local sink. -/
theorem c7_sinks_independent (cfg : Config) (w : World)
    (hl : cfg.needLocal = true) (hf : cfg.needFtp = true) :
    export_csv cfg w
      = ((export_csv_local cfg w).1 ++ (export_csv_ftp cfg w).1, none) ∧
    (∀ e, cfg.localPath ≠ "" → w.localWriteResult = Except.error e →
      Eff.logError e ∈ (export_csv_local cfg w).1) := by
  constructor
  · unfold export_csv
    rcases hloc : (if cfg.needLocal = true then export_csv_local cfg w
      else ([], none)) with ⟨t1, r1⟩
    have h1 : r1 = none := by
      have := export_csv_local_no_raise cfg w
      rw [hl, if_pos rfl] at hloc
      rw [hloc] at this
      exact this
    subst h1
    simp only [hloc]
    rw [hl, if_pos rfl] at hloc
    simp [hf, export_csv_ftp_no_raise, hloc]
  · intro e hpath he
    unfold export_csv_local
    rw [if_neg hpath, he]
    simp

/-- C7 witness: both conjuncts at the sample configuration and the
failing-disk world. -/
theorem c7_sinks_independent_witness :
    export_csv sampleCfg sampleWorldBadDisk
      = ((export_csv_local sampleCfg sampleWorldBadDisk).1
          ++ (export_csv_ftp sampleCfg sampleWorldBadDisk).1, none) ∧
    (∀ e, sampleCfg.localPath ≠ "" →
      sampleWorldBadDisk.localWriteResult = Except.error e →
      Eff.logError e ∈ (export_csv_local sampleCfg sampleWorldBadDisk).1) :=
  c7_sinks_independent sampleCfg sampleWorldBadDisk rfl rfl

/-- C10: when the local path is set and the timestamped file already
exists on the filesystem, a successful local export truncates and
overwrites it, so afterwards the path holds exactly the CSV of the current
table and nothing of the old content, and no exception escapes. -/
theorem c10_local_overwrites (cfg : Config) (w : World)
    (fs : String → Option String) (old : String)
    (hpath : cfg.localPath ≠ "")
    (hok : w.localWriteResult = Except.ok ())
    (hexists : fs (cfg.localPath ++ "/" ++ (w.now ++ ".csv")) = some old) :
    applyEffs (export_csv_local cfg w).1 fs
        (cfg.localPath ++ "/" ++ (w.now ++ ".csv"))
      = some (localCsvString (get_exported_data w)) ∧
    (export_csv_local cfg w).2 = none := by
  refine ⟨?_, export_csv_local_no_raise cfg w⟩
  unfold export_csv_local
  rw [if_neg hpath, hok]
  simp [applyEffs]

/-- C10 witness: overwriting at the sample configuration, on a filesystem
where the generated file name is already present with stale content. -/
theorem c10_local_overwrites_witness :
    applyEffs (export_csv_local sampleCfg sampleWorld).1
        (fun q => if q = sampleCfg.localPath ++ "/"
            ++ (sampleWorld.now ++ ".csv") then some "stale" else none)
        (sampleCfg.localPath ++ "/" ++ (sampleWorld.now ++ ".csv"))
      = some (localCsvString (get_exported_data sampleWorld)) ∧
    (export_csv_local sampleCfg sampleWorld).2 = none :=
  c10_local_overwrites sampleCfg sampleWorld _ "stale"
    (by decide) rfl (by simp)

/-- C1 counterexample: a callback whose first invocation raises.  The
claim predicts that the loop catches the exception and performs the second
scheduled invocation (2 calls); the loop body of `call_repeatedly` has no
exception handler, so only 1 call happens. -/
theorem c1_counterexample :
    callsBeforeExit [Except.error "boom", Except.ok ()] = 1 ∧
    callsBeforeExit [Except.error "boom", Except.ok ()] ≠ 2 := by
  exact ⟨rfl, by decide⟩

/-- C1 amended: `call_repeatedly` itself does not survive a raising
callback, but the callback the plugin installs — `export_csv` — catches
every exception at the sink boundary, so the export loop's invocations all
succeed and the loop runs for as many ticks as are scheduled. -/
theorem c1_export_loop_survives (cfg : Config) (w : World) (n : Nat) :
    exportOutcome cfg w = Except.ok () ∧
    callsBeforeExit (List.replicate n (exportOutcome cfg w)) = n := by
  have hout : exportOutcome cfg w = Except.ok () := by
    unfold exportOutcome
    rw [export_csv_no_raise]
  refine ⟨hout, ?_⟩
  rw [hout]
  induction n with
  | zero => rfl
  | succ m ih =>
    simp only [List.replicate_succ, callsBeforeExit] at ih ⊢
    omega

/-- C1 amended witness: the surviving loop at the sample configuration,
three ticks. -/
theorem c1_export_loop_survives_witness :
    exportOutcome sampleCfg sampleWorldBadDisk = Except.ok () ∧
    callsBeforeExit
        (List.replicate 3 (exportOutcome sampleCfg sampleWorldBadDisk)) = 3 :=
  c1_export_loop_survives sampleCfg sampleWorldBadDisk 3

/-- C3 counterexample: a non-initial settings update that sets the
interval to 0 while a sink stays enabled returns before touching the
status indicator, so an indicator that showed connected still shows
connected, where the claim demands disconnected. -/
theorem c3_counterexample :
    (update_settings sampleCfgZero false sampleStateConnected).status = true ∧
    ¬(sampleCfgZero.interval ≠ 0 ∧ auto_export_enabled sampleCfgZero = true)
    := by
  constructor
  · rfl
  · intro hcl
    exact absurd rfl hcl.1

/-- C3 amended: a non-initial settings update sets the status indicator to
connected exactly when at least one sink is enabled, but only when a
wallet is loaded and the new interval is non-zero; otherwise the handler
returns early and the indicator keeps its previous state. -/
theorem c3_status_update (s : PState) (cfg : Config) :
    (update_settings cfg false s).status =
      if s.wallet = true ∧ cfg.interval ≠ 0 then auto_export_enabled cfg
      else s.status := by
  unfold update_settings cancelRef auto_export_enabled
  rcases h' : s.timerRef with _ | i <;>
    rcases hw : s.wallet <;>
      rcases hi : cfg.interval with _ | m <;>
        simp [h', hw, hi, spawnTimer]

/-- Helper: after cancelling the referenced timer and clearing the handle,
a state satisfying the timer invariant has no live timer left. -/
theorem no_live_after_cancel (s : PState) (h : TimerInv s) :
    ∀ i, i < (cancelRef s).timers.length →
      (cancelRef s).timers.getD i false = false := by
  intro i hi
  rcases hk : s.timerRef with _ | k
  · simp only [cancelRef, hk] at hi ⊢
    rcases Bool.eq_false_or_eq_true (s.timers.getD i false) with hgd | hgd
    · have hcontra := h i hi hgd
      rw [hk] at hcontra
      exact Option.noConfusion hcontra
    · exact hgd
  · simp only [cancelRef, hk] at hi ⊢
    rw [List.length_set] at hi
    rw [List.getD_eq_getElem?_getD, List.getElem?_set]
    by_cases hik : k = i
    · subst hik
      simp [hi]
    · rw [if_neg hik]
      rcases Bool.eq_false_or_eq_true (s.timers[i]?.getD false) with hgd | hgd
    -- the live case contradicts the invariant: the handle points at k, not i
      · have hcontra := h i hi (by rw [List.getD_eq_getElem?_getD]; exact hgd)
        rw [hk] at hcontra
        exact absurd (Option.some.inj hcontra) hik
      · exact hgd

/-- Helper: a state with no live timer satisfies the timer invariant
whatever the handle holds. -/
theorem timerInv_of_all_dead (s : PState)
    (h : ∀ i, i < s.timers.length → s.timers.getD i false = false) :
    TimerInv s := by
  intro i hi hlive
  rw [h i hi] at hlive
  exact Bool.noConfusion hlive

/-- Helper: spawning a timer into a state with no live timer yields a
state satisfying the timer invariant. -/
theorem timerInv_spawn (s : PState)
    (h : ∀ i, i < s.timers.length → s.timers.getD i false = false) :
    TimerInv (spawnTimer s) := by
  intro i hi hlive
  simp only [spawnTimer] at hi hlive ⊢
  simp only [List.length_append, List.length_cons, List.length_nil] at hi
  by_cases hlt : i < s.timers.length
  · rw [List.getD_append s.timers [true] false i hlt, h i hlt] at hlive
    exact Bool.noConfusion hlive
  · have hieq : i = s.timers.length := by omega
    simp [hieq]

/-- C4 counterexample: from the fresh state, one wallet load starts a
timer and the state has at most one live timer; a second wallet load (a
second wallet opened in the host) starts another timer without cancelling
the first, leaving two live timers.  The claim that every handler
preserves the invariant is false for `load_wallet`. -/
theorem c4_counterexample :
    atMostOneLive (load_wallet sampleStateFresh) ∧
    ¬ atMostOneLive (load_wallet (load_wallet sampleStateFresh)) := by
  constructor
  · intro i j hi hj
    have hi1 : i < 1 := by
      simpa [load_wallet, sampleStateFresh, sampleCfg, spawnTimer, liveAt]
        using hi.1
    have hj1 : j < 1 := by
      simpa [load_wallet, sampleStateFresh, sampleCfg, spawnTimer, liveAt]
        using hj.1
    omega
  · intro h
    have h01 := h 0 1 ⟨by decide, by decide⟩ ⟨by decide, by decide⟩
    exact absurd h01 (by decide)

/-- C4 amended: `close_wallet` and `update_settings` preserve the
strengthened timer invariant (every live timer is the referenced one),
which entails at most one live timer; `load_wallet` guarantees it only
from states with no live timer — it does not cancel an existing one. -/
theorem c4_timer_invariant :
    (∀ s, TimerInv s → TimerInv (close_wallet s)) ∧
    (∀ s cfg ini, TimerInv s → TimerInv (update_settings cfg ini s)) ∧
    (∀ s, (∀ i, i < s.timers.length → s.timers.getD i false = false) →
      TimerInv (load_wallet s)) ∧
    (∀ s, TimerInv s → atMostOneLive s) := by
  refine ⟨?_, ?_, ?_, ?_⟩
  · intro s h
    have h' : TimerInv { s with wallet := false } := h
    have hdead := no_live_after_cancel { s with wallet := false } h'
    exact timerInv_of_all_dead _ hdead
  · intro s cfg ini h
    have h1 : TimerInv { s with cfg := cfg } := h
    have hdead := no_live_after_cancel { s with cfg := cfg } h1
    simp only [update_settings]
    split
    · exact timerInv_of_all_dead _ hdead
    · have hspawn := timerInv_spawn
        { cancelRef { s with cfg := cfg } with timerRef := none } hdead
      intro i hi hlive
      exact hspawn i hi hlive
  · intro s hdead
    simp only [load_wallet]
    split
    · exact timerInv_of_all_dead _ hdead
    · exact timerInv_spawn { s with wallet := true } hdead
  · intro s h i j hi hj
    have hi' := h i hi.1 hi.2
    have hj' := h j hj.1 hj.2
    rw [hi'] at hj'
    injection hj'

/-- C4 amended witness: the invariant facts applied at the connected
sample state (no timer spawned yet) and to one wallet load from it. -/
theorem c4_timer_invariant_witness :
    TimerInv (close_wallet sampleStateConnected) ∧
    TimerInv (update_settings sampleCfgZero false sampleStateConnected) ∧
    TimerInv (load_wallet sampleStateConnected) ∧
    atMostOneLive sampleStateConnected := by
  have hinv : TimerInv sampleStateConnected := by
    intro i hi _
    simp [sampleStateConnected] at hi
  have hdead : ∀ i, i < sampleStateConnected.timers.length →
      sampleStateConnected.timers.getD i false = false := by
    intro i hi
    simp [sampleStateConnected] at hi
  exact ⟨c4_timer_invariant.1 sampleStateConnected hinv,
    c4_timer_invariant.2.1 sampleStateConnected sampleCfgZero false hinv,
    c4_timer_invariant.2.2.1 sampleStateConnected hdead,
    c4_timer_invariant.2.2.2 sampleStateConnected hinv⟩

/-- Helper: folding appends equals flattening the mapped list. -/
theorem foldl_append_eq_flatten {α β : Type} (f : α → List β) :
    ∀ (l : List α) (acc : List β),
      l.foldl (fun a x => a ++ f x) acc = acc ++ (l.map f).flatten := by
  intro l
  induction l with
  | nil => intro acc; simp
  | cons x xs ih => intro acc; simp [ih]

/-- C8: for every table, the in-memory byte buffer the FTP sink uploads is
byte-for-byte the content the local sink would write for the same table:
the FTP sink's fold over its text buffer serialises exactly the rows of
the local sink's row loop, and both encode as UTF-8 with the same single
newline terminator. -/
theorem c8_ftp_buffer_eq_local_file (t : List (List PyVal)) :
    ftpUploadBytes t = localFileBytes t := by
  unfold ftpUploadBytes localFileBytes ftpCsvString localCsvString
    serializeTable
  rw [foldl_append_eq_flatten]
  simp

/-! ## Round-trip lemmas for the CSV reader -/

/-- Helper: one reader step in an unquoted field on an ordinary
character. -/
theorem pA_inField_char (c : Char) (r field : List Char)
    (row : List (List Char))
    (h1 : ¬c = '\n') (h2 : ¬c = '\r') (h3 : ¬c = ',') :
    parseAux .inField (c::r) field row
      = parseAux .inField r (field ++ [c]) row := by
  simp [parseAux, h1, h2, h3]

/-- Helper: a delimiter ends an unquoted field. -/
theorem pA_inField_comma (r field : List Char) (row : List (List Char)) :
    parseAux .inField (','::r) field row
      = parseAux .startField r [] (row ++ [field]) := by
  simp [parseAux]

/-- Helper: a newline ends the record from an unquoted field. -/
theorem pA_inField_newline (r field : List Char) (row : List (List Char)) :
    parseAux .inField ('\n'::r) field row
      = (row ++ [field]) :: parseAux .startRecord r [] [] := by
  simp [parseAux]

/-- Helper: a quote at field start opens a quoted field. -/
theorem pA_startField_quote (r field : List Char) (row : List (List Char)) :
    parseAux .startField ('"'::r) field row
      = parseAux .inQuoted r field row := by
  simp [parseAux]

/-- Helper: a delimiter at field start yields an empty field. -/
theorem pA_startField_comma (r field : List Char) (row : List (List Char)) :
    parseAux .startField (','::r) field row
      = parseAux .startField r [] (row ++ [field]) := by
  simp [parseAux]

/-- Helper: a newline at field start ends the record with an empty last
field. -/
theorem pA_startField_newline (r field : List Char) (row : List (List Char)) :
    parseAux .startField ('\n'::r) field row
      = (row ++ [field]) :: parseAux .startRecord r [] [] := by
  simp [parseAux]

/-- Helper: an ordinary character at field start begins an unquoted
field. -/
theorem pA_startField_char (c : Char) (r field : List Char)
    (row : List (List Char))
    (h1 : ¬c = '\n') (h2 : ¬c = '\r') (h3 : ¬c = '"') (h4 : ¬c = ',') :
    parseAux .startField (c::r) field row
      = parseAux .inField r (field ++ [c]) row := by
  simp [parseAux, h1, h2, h3, h4]

/-- Helper: a quote inside a quoted field starts a possible escape. -/
theorem pA_inQuoted_quote (r field : List Char) (row : List (List Char)) :
    parseAux .inQuoted ('"'::r) field row
      = parseAux .quoteInQuoted r field row := by
  simp [parseAux]

/-- Helper: any other character inside a quoted field is accumulated. -/
theorem pA_inQuoted_char (c : Char) (r field : List Char)
    (row : List (List Char)) (h : ¬c = '"') :
    parseAux .inQuoted (c::r) field row
      = parseAux .inQuoted r (field ++ [c]) row := by
  simp [parseAux, h]

/-- Helper: a doubled quote is one literal quote character. -/
theorem pA_qiq_quote (r field : List Char) (row : List (List Char)) :
    parseAux .quoteInQuoted ('"'::r) field row
      = parseAux .inQuoted r (field ++ ['"']) row := by
  simp [parseAux]

/-- Helper: a delimiter after a closing quote ends the field. -/
theorem pA_qiq_comma (r field : List Char) (row : List (List Char)) :
    parseAux .quoteInQuoted (','::r) field row
      = parseAux .startField r [] (row ++ [field]) := by
  simp [parseAux]

/-- Helper: a newline after a closing quote ends the record. -/
theorem pA_qiq_newline (r field : List Char) (row : List (List Char)) :
    parseAux .quoteInQuoted ('\n'::r) field row
      = (row ++ [field]) :: parseAux .startRecord r [] [] := by
  simp [parseAux]

/-- Helper: a newline at record start is an empty record. -/
theorem pA_startRecord_newline (r : List Char) :
    parseAux .startRecord ('\n'::r) [] []
      = [] :: parseAux .startRecord r [] [] := by
  simp [parseAux]

/-- Helper: a quote at record start opens a quoted first field. -/
theorem pA_startRecord_quote (r : List Char) :
    parseAux .startRecord ('"'::r) [] [] = parseAux .inQuoted r [] [] := by
  simp [parseAux]

/-- Helper: on anything but a record terminator, starting a record is the
same as starting its first field with empty accumulators. -/
theorem pA_startRecord_eq_startField (c : Char) (r : List Char)
    (h1 : ¬c = '\n') (h2 : ¬c = '\r') :
    parseAux .startRecord (c::r) [] []
      = parseAux .startField (c::r) [] [] := by
  by_cases h3 : c = '"'
  · subst h3; simp [parseAux]
  · by_cases h4 : c = ','
    · subst h4; simp [parseAux]
    · simp [parseAux, h1, h2, h3, h4]

/-- Helper: reading the escaped body of a quoted field accumulates exactly
the original field, leaving the reader just after the closing quote. -/
theorem pA_quoted_run (f : List Char) :
    ∀ (rest field : List Char) (row : List (List Char)),
      parseAux .inQuoted (escField f ++ '"' :: rest) field row
        = parseAux .quoteInQuoted rest (field ++ f) row := by
  induction f with
  | nil => intro rest field row; simp [escField, pA_inQuoted_quote]
  | cons c t ih =>
    intro rest field row
    by_cases hc : c = '"'
    · subst hc
      have he : escField ('"'::t) = '"' :: '"' :: escField t := by
        simp [escField]
      rw [he]
      simp only [List.cons_append]
      rw [pA_inQuoted_quote, pA_qiq_quote, ih]
      simp
    · simp only [escField, if_neg hc, List.cons_append]
      rw [pA_inQuoted_char c _ _ _ hc, ih]
      simp

/-- Helper: the characters of a field that QUOTE_MINIMAL leaves unquoted
contain no delimiter, quote, or newline. -/
theorem plain_of_not_quote (f : List Char)
    (hq : fieldNeedsQuote f = false) :
    ∀ c ∈ f, ¬c = ',' ∧ ¬c = '"' ∧ ¬c = '\n' := by
  intro c hc
  unfold fieldNeedsQuote at hq
  rw [List.any_eq_false] at hq
  have := hq c hc
  simp only [Bool.or_eq_true, decide_eq_true_eq, not_or] at this
  exact ⟨this.1.1, this.1.2, this.2⟩

/-- Helper: reading an unquoted run of plain characters accumulates them
into the current field. -/
theorem pA_inField_run :
    ∀ (f : List Char),
      (∀ c ∈ f, ¬c = ',' ∧ ¬c = '\n' ∧ ¬c = '\r') →
      ∀ (rest field : List Char) (row : List (List Char)),
        parseAux .inField (f ++ rest) field row
          = parseAux .inField rest (field ++ f) row := by
  intro f
  induction f with
  | nil => intro _ rest field row; simp
  | cons c t ih =>
    intro h rest field row
    obtain ⟨h1, h2, h3⟩ := h c (by simp)
    have ht : ∀ x ∈ t, ¬x = ',' ∧ ¬x = '\n' ∧ ¬x = '\r' :=
      fun x hx => h x (List.mem_cons_of_mem c hx)
    simp only [List.cons_append]
    rw [pA_inField_char c _ _ _ h2 h3 h1, ih ht]
    simp

/-- Helper: reading one serialised field followed by a delimiter pushes
exactly that field onto the record. -/
theorem pA_field_comma (f : List Char) (hcr : ∀ c ∈ f, ¬c = '\r') :
    ∀ (rest : List Char) (row : List (List Char)),
      parseAux .startField (writeField f ++ ',' :: rest) [] row
        = parseAux .startField rest [] (row ++ [f]) := by
  intro rest row
  unfold writeField
  cases hq : fieldNeedsQuote f with
  | true =>
    rw [if_pos rfl]
    simp only [List.cons_append, List.append_assoc, List.singleton_append]
    rw [pA_startField_quote, pA_quoted_run]
    simp only [List.nil_append]
    rw [pA_qiq_comma]
  | false =>
    rw [if_neg (by simp)]
    have hp := plain_of_not_quote f hq
    rcases f with _ | ⟨c, t⟩
    · exact pA_startField_comma rest [] row
    · obtain ⟨h1, h2, h3⟩ := hp c (by simp)
      have hc4 := hcr c (by simp)
      simp only [List.cons_append]
      rw [pA_startField_char c _ _ _ h3 hc4 h2 h1]
      have ht : ∀ x ∈ t, ¬x = ',' ∧ ¬x = '\n' ∧ ¬x = '\r' := by
        intro x hx
        obtain ⟨a1, _, a3⟩ := hp x (List.mem_cons_of_mem c hx)
        exact ⟨a1, a3, hcr x (List.mem_cons_of_mem c hx)⟩
      rw [pA_inField_run t ht, pA_inField_comma]
      simp

/-- Helper: reading one serialised field followed by a newline ends the
record with exactly that field appended. -/
theorem pA_field_newline (f : List Char) (hcr : ∀ c ∈ f, ¬c = '\r') :
    ∀ (rest : List Char) (row : List (List Char)),
      parseAux .startField (writeField f ++ '\n' :: rest) [] row
        = (row ++ [f]) :: parseAux .startRecord rest [] [] := by
  intro rest row
  unfold writeField
  cases hq : fieldNeedsQuote f with
  | true =>
    rw [if_pos rfl]
    simp only [List.cons_append, List.append_assoc, List.singleton_append]
    rw [pA_startField_quote, pA_quoted_run]
    simp only [List.nil_append]
    rw [pA_qiq_newline]
  | false =>
    rw [if_neg (by simp)]
    have hp := plain_of_not_quote f hq
    rcases f with _ | ⟨c, t⟩
    · exact pA_startField_newline rest [] row
    · obtain ⟨h1, h2, h3⟩ := hp c (by simp)
      have hc4 := hcr c (by simp)
      simp only [List.cons_append]
      rw [pA_startField_char c _ _ _ h3 hc4 h2 h1]
      have ht : ∀ x ∈ t, ¬x = ',' ∧ ¬x = '\n' ∧ ¬x = '\r' := by
        intro x hx
        obtain ⟨a1, _, a3⟩ := hp x (List.mem_cons_of_mem c hx)
        exact ⟨a1, a3, hcr x (List.mem_cons_of_mem c hx)⟩
      rw [pA_inField_run t ht, pA_inField_newline]
      simp

/-- Helper: reading a serialised nonempty field list followed by a newline
yields exactly those fields appended to the pending record. -/
theorem pA_fields_run :
    ∀ (fs : List (List Char)), fs ≠ [] →
      (∀ f ∈ fs, ∀ c ∈ f, ¬c = '\r') →
      ∀ (rest : List Char) (row : List (List Char)),
        parseAux .startField (sepFields fs ++ '\n' :: rest) [] row
          = (row ++ fs) :: parseAux .startRecord rest [] [] := by
  intro fs
  induction fs with
  | nil => intro h; exact absurd rfl h
  | cons f fs' ih =>
    intro _ hcr rest row
    rcases fs' with _ | ⟨g, gs⟩
    · simp only [sepFields]
      exact pA_field_newline f (hcr f (by simp)) rest row
    · simp only [sepFields, List.append_assoc, List.cons_append]
      rw [pA_field_comma f (hcr f (by simp))]
      rw [ih (by simp) (fun x hx => hcr x (List.mem_cons_of_mem f hx))]
      simp

/-- Helper: the first character of a serialised nonempty field is never a
record terminator. -/
theorem writeField_head (f : List Char) (hne : f ≠ [])
    (hcr : ∀ c ∈ f, ¬c = '\r') :
    ∃ c t, writeField f = c :: t ∧ ¬c = '\n' ∧ ¬c = '\r' := by
  unfold writeField
  cases hq : fieldNeedsQuote f with
  | true => exact ⟨'"', escField f ++ ['"'], by rw [if_pos rfl], by decide,
      by decide⟩
  | false =>
    rcases f with _ | ⟨c, t⟩
    · exact absurd rfl hne
    · obtain ⟨_, _, h3⟩ := plain_of_not_quote _ hq c (by simp)
      exact ⟨c, t, by rw [if_neg (by simp)], h3, hcr c (by simp)⟩

/-- Helper: the first character of a serialised record body is never a
record terminator (the single-empty-field record is excluded: it is
serialised in quoted form elsewhere). -/
theorem sepFields_head (fs : List (List Char)) (hne : fs ≠ [])
    (hsp : fs ≠ [[]]) (hcr : ∀ f ∈ fs, ∀ c ∈ f, ¬c = '\r') :
    ∃ c cs', sepFields fs = c :: cs' ∧ ¬c = '\n' ∧ ¬c = '\r' := by
  rcases fs with _ | ⟨f, fs'⟩
  · exact absurd rfl hne
  · rcases fs' with _ | ⟨g, gs⟩
    · have hf : f ≠ [] := by
        intro h
        exact hsp (by rw [h])
      obtain ⟨c, t, hw, h1, h2⟩ := writeField_head f hf (hcr f (by simp))
      exact ⟨c, t, by simp [sepFields, hw], h1, h2⟩
    · by_cases hf0 : f = []
      · refine ⟨',', sepFields (g::gs), ?_, by decide, by decide⟩
        subst hf0
        simp [sepFields, writeField, fieldNeedsQuote]
      · obtain ⟨c, t, hw, h1, h2⟩ := writeField_head f hf0 (hcr f (by simp))
        refine ⟨c, t ++ ',' :: sepFields (g::gs), ?_, h1, h2⟩
        simp [sepFields, hw]

/-- Helper: reading one serialised general record (nonempty, not the
single-empty-field special case) from record start yields exactly that
record. -/
theorem pA_record_run (fs : List (List Char)) (hne : fs ≠ [])
    (hsp : fs ≠ [[]]) (hcr : ∀ f ∈ fs, ∀ c ∈ f, ¬c = '\r')
    (rest : List Char) :
    parseAux .startRecord (writeRow fs ++ rest) [] []
      = fs :: parseAux .startRecord rest [] [] := by
  have hwr : writeRow fs = sepFields fs ++ ['\n'] := by
    unfold writeRow
    rw [if_neg hne, if_neg hsp]
  obtain ⟨c, cs', hhead, h1, h2⟩ := sepFields_head fs hne hsp hcr
  have key := pA_fields_run fs hne hcr rest []
  calc parseAux .startRecord (writeRow fs ++ rest) [] []
      = parseAux .startRecord (sepFields fs ++ '\n' :: rest) [] [] := by
        rw [hwr]; simp [List.append_assoc]
    _ = parseAux .startField (sepFields fs ++ '\n' :: rest) [] [] := by
        rw [hhead, List.cons_append]
        exact pA_startRecord_eq_startField c _ h1 h2
    _ = ([] ++ fs) :: parseAux .startRecord rest [] [] := key
    _ = fs :: parseAux .startRecord rest [] [] := by simp

/-- Helper: serialisation of a table unfolds one row at a time. -/
theorem serializeTable_cons (r : List PyVal) (t : List (List PyVal)) :
    serializeTable (r :: t)
      = writeRow (r.map PyVal.render) ++ serializeTable t := by
  simp [serializeTable]

/-- Helper: parsing the serialised table recovers the rendered rows, for
tables whose rendered fields contain no carriage return. -/
theorem parse_serialize :
    ∀ (t : List (List PyVal)),
      (∀ row ∈ t, ∀ v ∈ row, ∀ c ∈ PyVal.render v, ¬c = '\r') →
      parseAux .startRecord (serializeTable t) [] []
        = t.map (fun r => r.map PyVal.render) := by
  intro t
  induction t with
  | nil => intro _; simp [serializeTable, parseAux]
  | cons r t' ih =>
    intro hcr
    have hcr' : ∀ row ∈ t', ∀ v ∈ row, ∀ c ∈ PyVal.render v, ¬c = '\r' :=
      fun row hrow => hcr row (List.mem_cons_of_mem r hrow)
    have hrow : ∀ v ∈ r, ∀ c ∈ PyVal.render v, ¬c = '\r' :=
      hcr r (List.mem_cons_self r t')
    rw [serializeTable_cons]
    rcases r with _ | ⟨v, vs⟩
    · rw [show writeRow (([] : List PyVal).map PyVal.render) = ['\n'] from rfl]
      simp only [List.singleton_append]
      rw [pA_startRecord_newline, ih hcr']
      simp
    · rcases vs with _ | ⟨v2, vs'⟩
      · by_cases hv : PyVal.render v = []
        · rw [show writeRow ([v].map PyVal.render) = ['"', '"', '\n'] from by
            simp [writeRow, hv]]
          simp only [List.cons_append, List.nil_append]
          rw [pA_startRecord_quote, pA_inQuoted_quote, pA_qiq_newline,
            ih hcr']
          simp [hv]
        · have hne : [v].map PyVal.render ≠ [] := by simp
          have hsp : [v].map PyVal.render ≠ [[]] := by simp [hv]
          rw [pA_record_run ([v].map PyVal.render) hne hsp
            (by
              intro f hf c hc
              simp only [List.map_cons, List.map_nil, List.mem_cons,
                List.not_mem_nil, or_false] at hf
              subst hf
              exact hrow v (by simp) c hc) (serializeTable t'), ih hcr']
          simp
      · have hne : (v :: v2 :: vs').map PyVal.render ≠ [] := by simp
        have hsp : (v :: v2 :: vs').map PyVal.render ≠ [[]] := by
          intro h
          have := congrArg List.length h
          simp at this
        rw [pA_record_run ((v :: v2 :: vs').map PyVal.render) hne hsp
          (by
            intro f hf c hc
            rcases List.mem_map.mp hf with ⟨x, hx, rfl⟩
            exact hrow x hx c hc) (serializeTable t'), ih hcr']
        simp

/-- C9 counterexample: a table with an integer confirmations field.  The
local sink writes `x,3`; a standard CSV reader returns the string "3", so
the re-read rows are not equal, field for field, to the original table. -/
theorem c9_counterexample :
    (parseCsv (localCsvString [[PyVal.str "x", PyVal.int 3]]).data).map
        (fun r => r.map (fun f => PyVal.str (String.mk f)))
      ≠ [[PyVal.str "x", PyVal.int 3]] := by
  decide

/-- C9 amended: writing a table with the local sink and re-reading the
file with a standard CSV reader yields, field for field, the string
rendering of each original field (so tables of carriage-return-free
strings round-trip exactly; integer fields come back as their decimal
strings). -/
theorem c9_roundtrip_renders (t : List (List PyVal))
    (hcr : ∀ row ∈ t, ∀ v ∈ row, ∀ c ∈ PyVal.render v, ¬c = '\r') :
    parseCsv (localCsvString t).data
      = t.map (fun r => r.map PyVal.render) := by
  have hdata : (localCsvString t).data = serializeTable t := rfl
  unfold parseCsv
  rw [hdata]
  exact parse_serialize t hcr

/-- C9 amended witness: the round trip at a table with a comma, a quote
and an integer field. -/
theorem c9_roundtrip_renders_witness :
    parseCsv (localCsvString
        [[PyVal.str "a,b", PyVal.int 3], [PyVal.str "x\"y", PyVal.str ""]]).data
      = [[PyVal.str "a,b", PyVal.int 3],
          [PyVal.str "x\"y", PyVal.str ""]].map
          (fun r => r.map PyVal.render) :=
  c9_roundtrip_renders _ (by decide)

end AutoExport
